import Mathlib

set_option linter.unusedVariables false

/- ===================================================================
   Queue engine (spec-modelled).
   The queue implementation ships outside this tree; only its test
   (queue_test.go) is present, so the engine is modelled from the spec,
   sections 3, 4.1 and 8.
   =================================================================== -/

/-- Modelled from the spec: the two priority tiers of the queue engine
(`default` and `bulk`), named as in the queue test. -/
inductive Priority where
  | DefaultPriority
  | BulkPriority
  deriving DecidableEq, Repr

/-- Modelled from the spec: a queue payload is an opaque string, except that a
JSON-array payload (a compound multipart send) is special-cased by pop; the
engine only inspects the outer bracket, so a compound is modelled as the list
of its element strings. -/
inductive Payload where
  | simple (s : String)
  | compound (items : List String)
  deriving DecidableEq, Repr

/-- Modelled from the spec: the state of a destination token, which is either
absent, in the `active` sorted set with a score, or in the `throttled` sorted
set with a score. -/
inductive TokenState where
  | absent
  | active (score : Int)
  | throttled (score : Int)
  deriving DecidableEq, Repr

/-- Modelled from the spec: the KV state of one destination queue: the two
priority-tier sorted sets (members with their scores, kept in ascending score
order), the transaction log of send timestamps in epoch ms, the destination
token state, and the monotonic sequence counter used for push scores. -/
structure QState where
  defaultTier : List (Int × Payload)
  bulkTier : List (Int × Payload)
  transactions : List Int
  token : TokenState
  seq : Int
  deriving DecidableEq, Repr

/-- Modelled from the spec: sorted-set insertion: place the new member before
the first member with a larger or equal score, keeping ascending score order. -/
def zadd (score : Int) (member : Payload) : List (Int × Payload) → List (Int × Payload)
  | [] => [(score, member)]
  | (s, m) :: rest =>
    if score < s then (score, member) :: (s, m) :: rest
    else (s, m) :: zadd score member rest

/-- Modelled from the spec: PushOntoQueue appends the payload to the
destination's priority-tier sorted set with the monotonic sequence score, and,
if the destination is not currently throttled, adds it to `active` with
score = now. -/
def PushOntoQueue (now : Int) (payload : Payload) (priority : Priority) (q : QState) : QState :=
  let q' :=
    match priority with
    | .DefaultPriority => { q with defaultTier := zadd q.seq payload q.defaultTier, seq := q.seq + 1 }
    | .BulkPriority => { q with bulkTier := zadd q.seq payload q.bulkTier, seq := q.seq + 1 }
  match q'.token with
  | .throttled _ => q'
  | _ => { q' with token := .active now }

/-- Modelled from the spec: the result of PopFromQueue: the sentinel tokens
`EmptyQueue` (no work) and `Retry` (throttled, re-invoke), or a payload. -/
inductive PopResult where
  | EmptyQueue
  | Retry
  | payload (value : String)
  deriving DecidableEq, Repr

/-- Modelled from the spec: popping the first member of a tier: a simple
payload is returned whole; for a compound payload the head element is
returned and the nonempty tail is reinserted into the tier with the same
score minus one, so the remainder stays at the head. -/
def popMember (sc : Int) (p : Payload) (rest : List (Int × Payload)) :
    String × List (Int × Payload) :=
  match p with
  | .simple s => (s, rest)
  | .compound items =>
    match items with
    | [] => ("", rest)
    | h :: t => (h, if t.isEmpty then rest else zadd (sc - 1) (.compound t) rest)

/-- Modelled from the spec: the number of entries of the transaction log whose
score lies within the last 1000 ms before `nowMs`. -/
def recentTransactions (nowMs : Int) (q : QState) : Nat :=
  (q.transactions.filter (fun t => nowMs - 1000 < t)).length

/-- Modelled from the spec: PopFromQueue. If the destination token is active
with score at most now, count the transactions of the last second; at or over
the rate limit (when positive) move the token to `throttled` with score
now + 1 and return Retry; otherwise pop the lowest-scored payload with the
default tier taking strict precedence over bulk, split a compound payload,
record a transaction at nowMs, and remove the token from `active` when both
tiers are left empty (else re-score it to now). -/
def PopFromQueue (now nowMs : Int) (rateLimit : Nat) (q : QState) : PopResult × QState :=
  match q.token with
  | .active score =>
    if score ≤ now then
      if 0 < rateLimit ∧ rateLimit ≤ recentTransactions nowMs q then
        (.Retry, { q with token := .throttled (now + 1) })
      else
        match q.defaultTier with
        | (sc, p) :: rest =>
          let pm := popMember sc p rest
          let q' := { q with defaultTier := pm.2, transactions := nowMs :: q.transactions }
          if pm.2.isEmpty ∧ q.bulkTier.isEmpty then
            (.payload pm.1, { q' with token := .absent })
          else
            (.payload pm.1, { q' with token := .active now })
        | [] =>
          match q.bulkTier with
          | (sc, p) :: rest =>
            let pm := popMember sc p rest
            let q' := { q with bulkTier := pm.2, transactions := nowMs :: q.transactions }
            if q.defaultTier.isEmpty ∧ pm.2.isEmpty then
              (.payload pm.1, { q' with token := .absent })
            else
              (.payload pm.1, { q' with token := .active now })
          | [] => (.EmptyQueue, { q with token := .absent })
    else (.EmptyQueue, q)
  | _ => (.EmptyQueue, q)

/-- Modelled from the spec: the empty destination queue. -/
def initialQState : QState :=
  { defaultTier := [], bulkTier := [], transactions := [], token := .absent, seq := 0 }

/-- Push a list of simple payloads in order, all at the same priority. -/
def pushAll (now : Int) (pri : Priority) (ps : List String) (q : QState) : QState :=
  ps.foldl (fun q p => PushOntoQueue now (.simple p) pri q) q

/-- Run `n` pops, collecting the values of the successful (payload-returning)
pops in order. -/
def popValues (now nowMs : Int) (rateLimit : Nat) : Nat → QState → List String
  | 0, _ => []
  | n + 1, q =>
    match PopFromQueue now nowMs rateLimit q with
    | (.payload v, q') => v :: popValues now nowMs rateLimit n q'
    | (_, q') => popValues now nowMs rateLimit n q'

/-- A tier holding the given simple payloads in order, with consecutive
scores starting at `k`. -/
def labelled (k : Int) : List String → List (Int × Payload)
  | [] => []
  | p :: ps => (k, .simple p) :: labelled (k + 1) ps

/-- Sorted-set insertion appends when the new score is above every existing
score. -/
lemma zadd_append (score : Int) (m : Payload) :
    ∀ t : List (Int × Payload), (∀ x ∈ t, x.1 < score) → zadd score m t = t ++ [(score, m)] := by
  intro t
  induction t with
  | nil => intro _; rfl
  | cons hd rest ih =>
      intro h
      have hs : ¬ score < hd.1 := not_lt.mpr (le_of_lt (h hd (List.mem_cons_self _ _)))
      cases hd with
      | mk s p =>
          simp only [zadd, hs, if_false]
          rw [ih (fun x hx => h x (List.mem_cons_of_mem _ hx))]
          simp

/-- Sorted-set insertion prepends when the new score is below every existing
score. -/
lemma zadd_prepend (score : Int) (m : Payload) (t : List (Int × Payload))
    (h : ∀ x ∈ t, score < x.1) : zadd score m t = (score, m) :: t := by
  cases t with
  | nil => rfl
  | cons hd rest =>
      cases hd with
      | mk s p => simp only [zadd, h (s, p) (List.mem_cons_self _ _), if_true]

/-- A default-priority push on an unthrottled destination appends the payload
at the end of the default tier and activates the token at `now`. -/
lemma push_default_eq (now : Int) (pl : Payload) (q : QState)
    (hscore : ∀ x ∈ q.defaultTier, x.1 < q.seq)
    (htok : ∀ s, q.token ≠ .throttled s) :
    PushOntoQueue now pl .DefaultPriority q =
      { q with defaultTier := q.defaultTier ++ [(q.seq, pl)], seq := q.seq + 1,
               token := .active now } := by
  have hz := zadd_append q.seq pl q.defaultTier hscore
  cases h : q.token with
  | throttled s => exact absurd h (htok s)
  | absent => simp [PushOntoQueue, hz, h]
  | active s => simp [PushOntoQueue, hz, h]

/-- A bulk-priority push on an unthrottled destination appends the payload at
the end of the bulk tier and activates the token at `now`. -/
lemma push_bulk_eq (now : Int) (pl : Payload) (q : QState)
    (hscore : ∀ x ∈ q.bulkTier, x.1 < q.seq)
    (htok : ∀ s, q.token ≠ .throttled s) :
    PushOntoQueue now pl .BulkPriority q =
      { q with bulkTier := q.bulkTier ++ [(q.seq, pl)], seq := q.seq + 1,
               token := .active now } := by
  have hz := zadd_append q.seq pl q.bulkTier hscore
  cases h : q.token with
  | throttled s => exact absurd h (htok s)
  | absent => simp [PushOntoQueue, hz, h]
  | active s => simp [PushOntoQueue, hz, h]

/-- An eligible pop on a destination with a nonempty default tier pops the
head of the default tier. -/
lemma pop_default_eq (now nowMs : Int) (R : Nat) (q : QState) (sc0 sc : Int)
    (p : Payload) (rest : List (Int × Payload))
    (htok : q.token = .active sc0) (hsc : sc0 ≤ now)
    (hrate : ¬(0 < R ∧ R ≤ recentTransactions nowMs q))
    (hdef : q.defaultTier = (sc, p) :: rest) :
    PopFromQueue now nowMs R q =
      (.payload (popMember sc p rest).1,
       { q with defaultTier := (popMember sc p rest).2,
                transactions := nowMs :: q.transactions,
                token := if (popMember sc p rest).2.isEmpty ∧ q.bulkTier.isEmpty
                         then .absent else .active now }) := by
  by_cases hemp : (popMember sc p rest).2 = [] ∧ q.bulkTier = []
  · simp [PopFromQueue, htok, hsc, hrate, hdef, hemp]
  · simp [PopFromQueue, htok, hsc, hrate, hdef, hemp]

/-- An eligible pop on a destination whose default tier is empty pops the head
of the bulk tier. -/
lemma pop_bulk_eq (now nowMs : Int) (R : Nat) (q : QState) (sc0 sc : Int)
    (p : Payload) (rest : List (Int × Payload))
    (htok : q.token = .active sc0) (hsc : sc0 ≤ now)
    (hrate : ¬(0 < R ∧ R ≤ recentTransactions nowMs q))
    (hdef : q.defaultTier = []) (hbulk : q.bulkTier = (sc, p) :: rest) :
    PopFromQueue now nowMs R q =
      (.payload (popMember sc p rest).1,
       { q with bulkTier := (popMember sc p rest).2,
                transactions := nowMs :: q.transactions,
                token := if (popMember sc p rest).2.isEmpty
                         then .absent else .active now }) := by
  by_cases hemp : (popMember sc p rest).2 = []
  · simp [PopFromQueue, htok, hsc, hrate, hdef, hbulk, hemp]
  · simp [PopFromQueue, htok, hsc, hrate, hdef, hbulk, hemp]

/-- Pushing a list of simple payloads at default priority appends them, in
push order and with consecutive sequence scores, at the end of the default
tier; the bulk tier and the transaction log are untouched, and the token ends
active at `now` (unless nothing was pushed). -/
lemma pushAll_default_spec (now : Int) :
    ∀ (ps : List String) (q : QState),
      (∀ x ∈ q.defaultTier, x.1 < q.seq) → (∀ s, q.token ≠ .throttled s) →
      (pushAll now .DefaultPriority ps q).defaultTier = q.defaultTier ++ labelled q.seq ps ∧
      (pushAll now .DefaultPriority ps q).bulkTier = q.bulkTier ∧
      (pushAll now .DefaultPriority ps q).transactions = q.transactions ∧
      (pushAll now .DefaultPriority ps q).seq = q.seq + ps.length ∧
      (ps = [] → (pushAll now .DefaultPriority ps q).token = q.token) ∧
      (ps ≠ [] → (pushAll now .DefaultPriority ps q).token = .active now) := by
  intro ps
  induction ps with
  | nil => intro q hscore htok; simp [pushAll, labelled]
  | cons p ps ih =>
      intro q hscore htok
      have hstep : pushAll now .DefaultPriority (p :: ps) q =
          pushAll now .DefaultPriority ps (PushOntoQueue now (.simple p) .DefaultPriority q) := rfl
      have hpush := push_default_eq now (.simple p) q hscore htok
      set q1 := PushOntoQueue now (.simple p) .DefaultPriority q with hq1
      have hq1d : q1.defaultTier = q.defaultTier ++ [(q.seq, .simple p)] := by rw [hpush]
      have hq1b : q1.bulkTier = q.bulkTier := by rw [hpush]
      have hq1t : q1.transactions = q.transactions := by rw [hpush]
      have hq1s : q1.seq = q.seq + 1 := by rw [hpush]
      have hq1tok : q1.token = .active now := by rw [hpush]
      have hscore1 : ∀ x ∈ q1.defaultTier, x.1 < q1.seq := by
        intro x hx
        rw [hq1d] at hx
        rw [hq1s]
        rcases List.mem_append.mp hx with h | h
        · exact lt_trans (hscore x h) (by omega)
        · simp only [List.mem_singleton] at h
          subst h
          show q.seq < q.seq + 1
          omega
      have htok1 : ∀ s, q1.token ≠ .throttled s := by
        intro s
        rw [hq1tok]
        intro hcontra
        exact TokenState.noConfusion hcontra
      obtain ⟨ihd, ihb, iht, ihs, ihe, ihn⟩ := ih q1 hscore1 htok1
      rw [hstep]
      refine ⟨?_, ?_, ?_, ?_, ?_, ?_⟩
      · rw [ihd, hq1d, hq1s, List.append_assoc]
        simp [labelled]
      · rw [ihb, hq1b]
      · rw [iht, hq1t]
      · rw [ihs, hq1s]
        simp
        omega
      · intro h; exact absurd h (List.cons_ne_nil _ _)
      · intro _
        cases hps : ps with
        | nil => rw [hps] at ihe; rw [ihe rfl, hq1tok]
        | cons a l =>
            rw [hps] at ihn
            exact ihn (List.cons_ne_nil _ _)

/-- Pushing a list of simple payloads at bulk priority appends them, in push
order and with consecutive sequence scores, at the end of the bulk tier; the
default tier and the transaction log are untouched, and the token ends active
at `now` (unless nothing was pushed). -/
lemma pushAll_bulk_spec (now : Int) :
    ∀ (ps : List String) (q : QState),
      (∀ x ∈ q.bulkTier, x.1 < q.seq) → (∀ s, q.token ≠ .throttled s) →
      (pushAll now .BulkPriority ps q).bulkTier = q.bulkTier ++ labelled q.seq ps ∧
      (pushAll now .BulkPriority ps q).defaultTier = q.defaultTier ∧
      (pushAll now .BulkPriority ps q).transactions = q.transactions ∧
      (pushAll now .BulkPriority ps q).seq = q.seq + ps.length ∧
      (ps = [] → (pushAll now .BulkPriority ps q).token = q.token) ∧
      (ps ≠ [] → (pushAll now .BulkPriority ps q).token = .active now) := by
  intro ps
  induction ps with
  | nil => intro q hscore htok; simp [pushAll, labelled]
  | cons p ps ih =>
      intro q hscore htok
      have hstep : pushAll now .BulkPriority (p :: ps) q =
          pushAll now .BulkPriority ps (PushOntoQueue now (.simple p) .BulkPriority q) := rfl
      have hpush := push_bulk_eq now (.simple p) q hscore htok
      set q1 := PushOntoQueue now (.simple p) .BulkPriority q with hq1
      have hq1d : q1.bulkTier = q.bulkTier ++ [(q.seq, .simple p)] := by rw [hpush]
      have hq1b : q1.defaultTier = q.defaultTier := by rw [hpush]
      have hq1t : q1.transactions = q.transactions := by rw [hpush]
      have hq1s : q1.seq = q.seq + 1 := by rw [hpush]
      have hq1tok : q1.token = .active now := by rw [hpush]
      have hscore1 : ∀ x ∈ q1.bulkTier, x.1 < q1.seq := by
        intro x hx
        rw [hq1d] at hx
        rw [hq1s]
        rcases List.mem_append.mp hx with h | h
        · exact lt_trans (hscore x h) (by omega)
        · simp only [List.mem_singleton] at h
          subst h
          show q.seq < q.seq + 1
          omega
      have htok1 : ∀ s, q1.token ≠ .throttled s := by
        intro s
        rw [hq1tok]
        intro hcontra
        exact TokenState.noConfusion hcontra
      obtain ⟨ihd, ihb, iht, ihs, ihe, ihn⟩ := ih q1 hscore1 htok1
      rw [hstep]
      refine ⟨?_, ?_, ?_, ?_, ?_, ?_⟩
      · rw [ihd, hq1d, hq1s, List.append_assoc]
        simp [labelled]
      · rw [ihb, hq1b]
      · rw [iht, hq1t]
      · rw [ihs, hq1s]
        simp
        omega
      · intro h; exact absurd h (List.cons_ne_nil _ _)
      · intro _
        cases hps : ps with
        | nil => rw [hps] at ihe; rw [ihe rfl, hq1tok]
        | cons a l =>
            rw [hps] at ihn
            exact ihn (List.cons_ne_nil _ _)

/-- Popping a default tier holding labelled simple payloads, with no rate
limit, returns them in label order. -/
lemma popValues_labelled_default :
    ∀ (ps : List String) (k : Int) (q : QState),
      q.defaultTier = labelled k ps → q.bulkTier = [] →
      (ps ≠ [] → q.token = .active 0) →
      popValues 0 0 0 ps.length q = ps := by
  intro ps
  induction ps with
  | nil => intro k q _ _ _; rfl
  | cons p ps ih =>
      intro k q hdef hbulk htok
      have htok' := htok (List.cons_ne_nil _ _)
      have hrate : ¬((0 : Nat) < 0 ∧ 0 ≤ recentTransactions 0 q) := by simp
      have hdef' : q.defaultTier = (k, Payload.simple p) :: labelled (k + 1) ps := hdef
      have hpop := pop_default_eq 0 0 0 q 0 k (.simple p) (labelled (k + 1) ps)
        htok' (le_refl 0) hrate hdef'
      have hpm : popMember k (Payload.simple p) (labelled (k + 1) ps) =
          (p, labelled (k + 1) ps) := rfl
      rw [hpm] at hpop
      show popValues 0 0 0 (ps.length + 1) q = p :: ps
      simp only [popValues, hpop]
      congr 1
      apply ih (k + 1)
      · simp
      · simp [hbulk]
      · intro hne
        have hlab : labelled (k + 1) ps ≠ [] := by
          cases ps with
          | nil => exact absurd rfl hne
          | cons a l => simp [labelled]
        simp [hlab]

/-- Popping a bulk tier holding labelled simple payloads while the default
tier is empty, with no rate limit, returns them in label order. -/
lemma popValues_labelled_bulk :
    ∀ (ps : List String) (k : Int) (q : QState),
      q.bulkTier = labelled k ps → q.defaultTier = [] →
      (ps ≠ [] → q.token = .active 0) →
      popValues 0 0 0 ps.length q = ps := by
  intro ps
  induction ps with
  | nil => intro k q _ _ _; rfl
  | cons p ps ih =>
      intro k q hbulk hdef htok
      have htok' := htok (List.cons_ne_nil _ _)
      have hrate : ¬((0 : Nat) < 0 ∧ 0 ≤ recentTransactions 0 q) := by simp
      have hbulk' : q.bulkTier = (k, Payload.simple p) :: labelled (k + 1) ps := hbulk
      have hpop := pop_bulk_eq 0 0 0 q 0 k (.simple p) (labelled (k + 1) ps)
        htok' (le_refl 0) hrate hdef hbulk'
      have hpm : popMember k (Payload.simple p) (labelled (k + 1) ps) =
          (p, labelled (k + 1) ps) := rfl
      rw [hpm] at hpop
      show popValues 0 0 0 (ps.length + 1) q = p :: ps
      simp only [popValues, hpop]
      congr 1
      apply ih (k + 1)
      · simp
      · simp [hdef]
      · intro hne
        have hlab : labelled (k + 1) ps ≠ [] := by
          cases ps with
          | nil => exact absurd rfl hne
          | cons a l => simp [labelled]
        simp [hlab]

/-- **C1.** For one destination and one priority tier, pushing any sequence of
payloads with PushOntoQueue and then popping with PopFromQueue returns the
pushed payloads in exactly the order they were pushed (FIFO within the tier).
Settled against the spec-modelled queue engine. -/
theorem fifo_within_tier (ps : List String) (pri : Priority) :
    popValues 0 0 0 ps.length (pushAll 0 pri ps initialQState) = ps := by
  have hscored : ∀ x ∈ initialQState.defaultTier, x.1 < initialQState.seq := by
    intro x hx; simp [initialQState] at hx
  have hscoreb : ∀ x ∈ initialQState.bulkTier, x.1 < initialQState.seq := by
    intro x hx; simp [initialQState] at hx
  have htok : ∀ s, initialQState.token ≠ .throttled s := by
    intro s h; simp [initialQState] at h
  cases pri with
  | DefaultPriority =>
      obtain ⟨hd, hb, _, _, _, hn⟩ := pushAll_default_spec 0 ps initialQState hscored htok
      apply popValues_labelled_default ps 0
      · rw [hd]; simp [initialQState]
      · rw [hb]; simp [initialQState]
      · exact hn
  | BulkPriority =>
      obtain ⟨hd, hb, _, _, _, hn⟩ := pushAll_bulk_spec 0 ps initialQState hscoreb htok
      apply popValues_labelled_bulk ps 0
      · rw [hd]; simp [initialQState]
      · rw [hb]; simp [initialQState]
      · exact hn

/-- The value pop returns for a tier member: a simple payload whole, the head
element of a compound payload. -/
def headValue : Payload → String
  | .simple s => s
  | .compound items => items.headD ""

lemma popMember_fst (sc : Int) (p : Payload) (rest : List (Int × Payload)) :
    (popMember sc p rest).1 = headValue p := by
  cases p with
  | simple s => rfl
  | compound items => cases items <;> rfl

/-- **C2.** Whenever both the default and the bulk tier hold payloads at the
moment PopFromQueue runs (and the pop is eligible and not throttled), the pop
returns the head payload of the default tier and leaves the bulk tier
untouched. Settled against the spec-modelled queue engine. -/
theorem default_preempts_bulk
    (q : QState) (now nowMs : Int) (R : Nat) (sc sc1 : Int) (p : Payload)
    (rest : List (Int × Payload))
    (htok : q.token = .active sc) (hsc : sc ≤ now)
    (hrate : ¬(0 < R ∧ R ≤ recentTransactions nowMs q))
    (hdef : q.defaultTier = (sc1, p) :: rest)
    (hbulk : q.bulkTier ≠ []) :
    (PopFromQueue now nowMs R q).1 = .payload (headValue p) ∧
    (PopFromQueue now nowMs R q).2.bulkTier = q.bulkTier := by
  have hpop := pop_default_eq now nowMs R q sc sc1 p rest htok hsc hrate hdef
  rw [hpop]
  exact ⟨by rw [popMember_fst], rfl⟩

/-- Witness for C2: a bulk push followed by a later default push still yields
the default payload first, and the bulk item stays queued. -/
theorem default_preempts_bulk_witness :
    (PopFromQueue 1 1 0 (PushOntoQueue 1 (.simple "msg:31") .DefaultPriority
        (PushOntoQueue 0 (.simple "msg:30") .BulkPriority initialQState))).1 =
      .payload "msg:31" ∧
    (PopFromQueue 1 1 0 (PushOntoQueue 1 (.simple "msg:31") .DefaultPriority
        (PushOntoQueue 0 (.simple "msg:30") .BulkPriority initialQState))).2.bulkTier =
      [(0, .simple "msg:30")] := by
  have h := default_preempts_bulk
    (PushOntoQueue 1 (.simple "msg:31") .DefaultPriority
      (PushOntoQueue 0 (.simple "msg:30") .BulkPriority initialQState))
    1 1 0 1 1 (.simple "msg:31") []
    rfl (le_refl 1) (by simp) rfl (by decide)
  exact ⟨h.1, by rw [h.2]; rfl⟩

/-- Run a sequence of pops, each given its (now, nowMs) clock reading,
recording the ms timestamp and result of each call. -/
def runPops (rateLimit : Nat) : List (Int × Int) → QState → List (Int × PopResult)
  | [], _ => []
  | t :: ts, q =>
    (t.2, (PopFromQueue t.1 t.2 rateLimit q).1) ::
      runPops rateLimit ts (PopFromQueue t.1 t.2 rateLimit q).2

/-- Whether a pop result carries a payload (neither Retry nor EmptyQueue). -/
def isPayload : PopResult → Bool
  | .payload _ => true
  | _ => false

/-- The ms timestamps of the successful (payload-returning) pops of a run. -/
def successTimes (l : List (Int × PopResult)) : List Int :=
  (l.filter (fun e => isPayload e.2)).map Prod.fst

/-- The number of timestamps falling in the 1000 ms window starting at `w`. -/
def windowCount (w : Int) (l : List Int) : Nat :=
  (l.filter (fun t => w ≤ t ∧ t < w + 1000)).length

/-- Each time in the list was admitted while fewer than `R` of the earlier
times (the accumulator) lay in the preceding 1000 ms. -/
def RateOK (R : Nat) : List Int → List Int → Prop
  | _, [] => True
  | acc, t :: rest =>
    (acc.filter (fun x => t - 1000 < x)).length < R ∧ RateOK R (t :: acc) rest

/-- A successful pop records its timestamp in the transaction log and, when
the rate limit is positive, found fewer than `R` transactions in the last
second. -/
lemma pop_success_transactions (now nowMs : Int) (R : Nat) (q : QState)
    (h : isPayload (PopFromQueue now nowMs R q).1 = true) :
    (PopFromQueue now nowMs R q).2.transactions = nowMs :: q.transactions ∧
    (0 < R → recentTransactions nowMs q < R) := by
  cases htok : q.token with
  | absent => simp [PopFromQueue, htok, isPayload] at h
  | throttled s => simp [PopFromQueue, htok, isPayload] at h
  | active score =>
      by_cases hsc : score ≤ now
      · by_cases hrate : 0 < R ∧ R ≤ recentTransactions nowMs q
        · simp [PopFromQueue, htok, hsc, hrate, isPayload] at h
        · have hcount : 0 < R → recentTransactions nowMs q < R := by
            intro hR
            have h2 : ¬ R ≤ recentTransactions nowMs q := fun hle => hrate ⟨hR, hle⟩
            omega
          cases hdef : q.defaultTier with
          | cons hd rest =>
              cases hd with
              | mk sc p =>
                  have hpop := pop_default_eq now nowMs R q score sc p rest htok hsc hrate hdef
                  rw [hpop]
                  exact ⟨rfl, hcount⟩
          | nil =>
              cases hbulk : q.bulkTier with
              | cons hd rest =>
                  cases hd with
                  | mk sc p =>
                      have hpop := pop_bulk_eq now nowMs R q score sc p rest htok hsc hrate hdef hbulk
                      rw [hpop]
                      exact ⟨rfl, hcount⟩
              | nil => simp [PopFromQueue, htok, hsc, hrate, hdef, hbulk, isPayload] at h
      · simp [PopFromQueue, htok, hsc, isPayload] at h

/-- An unsuccessful pop leaves the transaction log unchanged. -/
lemma pop_fail_transactions (now nowMs : Int) (R : Nat) (q : QState)
    (h : isPayload (PopFromQueue now nowMs R q).1 = false) :
    (PopFromQueue now nowMs R q).2.transactions = q.transactions := by
  cases htok : q.token with
  | absent => simp [PopFromQueue, htok]
  | throttled s => simp [PopFromQueue, htok]
  | active score =>
      by_cases hsc : score ≤ now
      · by_cases hrate : 0 < R ∧ R ≤ recentTransactions nowMs q
        · simp [PopFromQueue, htok, hsc, hrate]
        · cases hdef : q.defaultTier with
          | cons hd rest =>
              cases hd with
              | mk sc p =>
                  have hpop := pop_default_eq now nowMs R q score sc p rest htok hsc hrate hdef
                  rw [hpop] at h
                  simp [isPayload] at h
          | nil =>
              cases hbulk : q.bulkTier with
              | cons hd rest =>
                  cases hd with
                  | mk sc p =>
                      have hpop := pop_bulk_eq now nowMs R q score sc p rest htok hsc hrate hdef hbulk
                      rw [hpop] at h
                      simp [isPayload] at h
              | nil => simp [PopFromQueue, htok, hsc, hrate, hdef, hbulk]
      · simp [PopFromQueue, htok, hsc]

/-- Every run of pops is rate-admissible: each successful pop found fewer than
`R` transactions (earlier success timestamps) in its preceding second. -/
lemma runPops_rateOK (R : Nat) (hR : 0 < R) :
    ∀ (ts : List (Int × Int)) (q : QState),
      RateOK R q.transactions (successTimes (runPops R ts q)) := by
  intro ts
  induction ts with
  | nil => intro q; exact trivial
  | cons t ts ih =>
      intro q
      obtain ⟨now, nowMs⟩ := t
      by_cases h : isPayload (PopFromQueue now nowMs R q).1 = true
      · have hs := pop_success_transactions now nowMs R q h
        have hsucc : successTimes (runPops R ((now, nowMs) :: ts) q) =
            nowMs :: successTimes (runPops R ts (PopFromQueue now nowMs R q).2) := by
          simp [runPops, successTimes, h]
        rw [hsucc]
        refine ⟨hs.2 hR, ?_⟩
        have hrest := ih (PopFromQueue now nowMs R q).2
        rw [hs.1] at hrest
        exact hrest
      · have hflag : isPayload (PopFromQueue now nowMs R q).1 = false :=
          Bool.not_eq_true _ ▸ eq_false_of_ne_true h
        have hf := pop_fail_transactions now nowMs R q hflag
        have hsucc : successTimes (runPops R ((now, nowMs) :: ts) q) =
            successTimes (runPops R ts (PopFromQueue now nowMs R q).2) := by
          simp [runPops, successTimes, hflag]
        rw [hsucc]
        have hrest := ih (PopFromQueue now nowMs R q).2
        rw [hf] at hrest
        exact hrest

/-- The success timestamps of a run form a sublist of the supplied ms clock
readings. -/
lemma successTimes_sublist (R : Nat) :
    ∀ (ts : List (Int × Int)) (q : QState),
      List.Sublist (successTimes (runPops R ts q)) (ts.map Prod.snd) := by
  intro ts
  induction ts with
  | nil => intro q; simp [runPops, successTimes]
  | cons t ts ih =>
      intro q
      obtain ⟨now, nowMs⟩ := t
      by_cases h : isPayload (PopFromQueue now nowMs R q).1 = true
      · have hsucc : successTimes (runPops R ((now, nowMs) :: ts) q) =
            nowMs :: successTimes (runPops R ts (PopFromQueue now nowMs R q).2) := by
          simp [runPops, successTimes, h]
        rw [hsucc]
        simp only [List.map_cons]
        exact (ih _).cons₂ _
      · have hflag : isPayload (PopFromQueue now nowMs R q).1 = false :=
          Bool.not_eq_true _ ▸ eq_false_of_ne_true h
        have hsucc : successTimes (runPops R ((now, nowMs) :: ts) q) =
            successTimes (runPops R ts (PopFromQueue now nowMs R q).2) := by
          simp [runPops, successTimes, hflag]
        rw [hsucc]
        simp only [List.map_cons]
        exact (ih _).cons _

/-- A rate-admissible, time-ordered list of timestamps has at most `R`
entries in any 1000 ms window (counting also an admissible accumulator of
earlier timestamps). -/
lemma rateOK_window (R : Nat) :
    ∀ (S acc : List Int), RateOK R acc S → List.Sorted (· ≤ ·) S →
      (∀ a ∈ acc, ∀ t ∈ S, a ≤ t) → ∀ w,
      windowCount w acc + windowCount w S ≤ max (windowCount w acc) R := by
  intro S
  induction S with
  | nil =>
      intro acc _ _ _ w
      simp only [windowCount, List.filter_nil, List.length_nil, Nat.add_zero]
      exact le_max_left _ _
  | cons t S ih =>
      intro acc hok hsort hpt w
      obtain ⟨h1, h2⟩ := hok
      have hsort' : List.Sorted (· ≤ ·) S := hsort.of_cons
      have hts : ∀ u ∈ S, t ≤ u := (List.sorted_cons.mp hsort).1
      have hpt' : ∀ a ∈ t :: acc, ∀ u ∈ S, a ≤ u := by
        intro a ha u hu
        rcases List.mem_cons.mp ha with h | h
        · subst h; exact hts u hu
        · exact hpt a h u (List.mem_cons_of_mem t hu)
      have ihx := ih (t :: acc) h2 hsort' hpt' w
      by_cases hw : w ≤ t ∧ t < w + 1000
      · have hcons_acc : windowCount w (t :: acc) = windowCount w acc + 1 := by
          simp [windowCount, List.filter_cons, hw]
        have hcons_S : windowCount w (t :: S) = windowCount w S + 1 := by
          simp [windowCount, List.filter_cons, hw]
        have hsub : windowCount w acc ≤ (acc.filter (fun x => t - 1000 < x)).length := by
          apply List.Sublist.length_le
          apply List.monotone_filter_right
          intro a ha
          simp only [decide_eq_true_eq] at ha ⊢
          omega
        have hlt : windowCount w acc < R := lt_of_le_of_lt hsub h1
        rw [hcons_acc] at ihx
        have hmaxx : max (windowCount w acc + 1) R = R := max_eq_right (by omega)
        rw [hmaxx] at ihx
        have hmax2 : max (windowCount w acc) R = R := max_eq_right (by omega)
        rw [hcons_S, hmax2]
        omega
      · have hcons_acc : windowCount w (t :: acc) = windowCount w acc := by
          simp [windowCount, List.filter_cons, hw]
        have hcons_S : windowCount w (t :: S) = windowCount w S := by
          simp [windowCount, List.filter_cons, hw]
        rw [hcons_acc] at ihx
        rw [hcons_S]
        exact ihx

/-- **C3.** For a destination with rate limit R > 0: over any rolling 1000 ms
window, the pops of a run that return a payload (neither Retry nor EmptyQueue)
number at most R; and a pop that finds the recent-transaction count at the
limit moves the destination token from active to throttled (score now + 1)
and returns Retry. Settled against the spec-modelled queue engine. -/
theorem rate_ceiling (R : Nat) (hR : 0 < R) :
    (∀ (ts : List (Int × Int)) (q : QState) (w : Int),
      q.transactions = [] → List.Sorted (· ≤ ·) (ts.map Prod.snd) →
      windowCount w (successTimes (runPops R ts q)) ≤ R) ∧
    (∀ (q : QState) (now nowMs sc : Int),
      q.token = .active sc → sc ≤ now → R ≤ recentTransactions nowMs q →
      PopFromQueue now nowMs R q = (.Retry, { q with token := .throttled (now + 1) })) := by
  constructor
  · intro ts q w htrans hsort
    have hok := runPops_rateOK R hR ts q
    rw [htrans] at hok
    have hsorted : List.Sorted (· ≤ ·) (successTimes (runPops R ts q)) :=
      List.Pairwise.sublist (successTimes_sublist R ts q) hsort
    have hwin := rateOK_window R (successTimes (runPops R ts q)) [] hok hsorted
      (by intro a ha; simp at ha) w
    simpa [windowCount] using hwin
  · intro q now nowMs sc htok hsc hrate
    have hcond : 0 < R ∧ R ≤ recentTransactions nowMs q := ⟨hR, hrate⟩
    simp [PopFromQueue, htok, hsc, hcond]

/-- Witness for C3: with rate 1, a run of three pops at ms times 0, 5, 10 on
a freshly pushed queue yields at most one payload in the window starting at 0;
and a concrete at-limit pop is throttled and returns Retry. -/
theorem rate_ceiling_witness :
    windowCount 0 (successTimes (runPops 1 [(0, 0), (0, 5), (0, 10)]
      (pushAll 0 .DefaultPriority ["a", "b", "c"] initialQState))) ≤ 1 ∧
    PopFromQueue 0 500 1
        { defaultTier := [(0, .simple "x")], bulkTier := [], transactions := [0],
          token := .active 0, seq := 1 } =
      (.Retry,
        { defaultTier := [(0, .simple "x")], bulkTier := [], transactions := [0],
          token := .throttled 1, seq := 1 }) := by
  constructor
  · exact (rate_ceiling 1 one_pos).1 [(0, 0), (0, 5), (0, 10)]
      (pushAll 0 .DefaultPriority ["a", "b", "c"] initialQState) 0 rfl (by decide)
  · exact (rate_ceiling 1 one_pos).2
      { defaultTier := [(0, .simple "x")], bulkTier := [], transactions := [0],
        token := .active 0, seq := 1 } 0 500 0 rfl (by decide) (by decide)

/-- Push a list of payloads with their priorities, in order, at time `now`. -/
def pushList (now : Int) (items : List (Payload × Priority)) (q : QState) : QState :=
  items.foldl (fun q it => PushOntoQueue now it.1 it.2 q) q

/-- Field-level description of a single push: the addressed tier gains the
payload by sorted-set insertion at the sequence score, the sequence counter
advances, the transaction log is untouched, and an unthrottled token becomes
active at `now`. -/
lemma push_fields (now : Int) (pl : Payload) (pri : Priority) (q : QState) :
    (PushOntoQueue now pl pri q).defaultTier =
      (match pri with
       | .DefaultPriority => zadd q.seq pl q.defaultTier
       | .BulkPriority => q.defaultTier) ∧
    (PushOntoQueue now pl pri q).bulkTier =
      (match pri with
       | .BulkPriority => zadd q.seq pl q.bulkTier
       | .DefaultPriority => q.bulkTier) ∧
    (PushOntoQueue now pl pri q).transactions = q.transactions ∧
    (PushOntoQueue now pl pri q).seq = q.seq + 1 ∧
    ((∀ s, q.token ≠ .throttled s) → (PushOntoQueue now pl pri q).token = .active now) := by
  cases pri with
  | DefaultPriority =>
      cases htok : q.token with
      | absent => simp [PushOntoQueue, htok]
      | active s => simp [PushOntoQueue, htok]
      | throttled s =>
          refine ⟨by simp [PushOntoQueue, htok], by simp [PushOntoQueue, htok],
            by simp [PushOntoQueue, htok], by simp [PushOntoQueue, htok], ?_⟩
          intro h
          exact absurd rfl (h s)
  | BulkPriority =>
      cases htok : q.token with
      | absent => simp [PushOntoQueue, htok]
      | active s => simp [PushOntoQueue, htok]
      | throttled s =>
          refine ⟨by simp [PushOntoQueue, htok], by simp [PushOntoQueue, htok],
            by simp [PushOntoQueue, htok], by simp [PushOntoQueue, htok], ?_⟩
          intro h
          exact absurd rfl (h s)

/-- Pushing any list of payloads (any mix of priorities) only ever appends to
the default tier, and the appended members carry scores at least the starting
sequence number; the sequence counter only grows, the transaction log is
untouched, and a token active at `now` stays active at `now`. -/
lemma pushList_spec (now : Int) :
    ∀ (L : List (Payload × Priority)) (q : QState),
      (∀ x ∈ q.defaultTier, x.1 < q.seq) →
      ∃ E, (pushList now L q).defaultTier = q.defaultTier ++ E ∧
        (∀ x ∈ E, q.seq ≤ x.1) ∧
        (∀ x ∈ (pushList now L q).defaultTier, x.1 < (pushList now L q).seq) ∧
        q.seq ≤ (pushList now L q).seq ∧
        (pushList now L q).transactions = q.transactions ∧
        (q.token = .active now → (pushList now L q).token = .active now) := by
  intro L
  induction L with
  | nil =>
      intro q hscore
      exact ⟨[], by simp [pushList], by simp, hscore, le_refl _, rfl, fun h => h⟩
  | cons it L ih =>
      intro q hscore
      obtain ⟨pl, pri⟩ := it
      have hstep : pushList now ((pl, pri) :: L) q = pushList now L (PushOntoQueue now pl pri q) := rfl
      obtain ⟨hfd, hfb, hft, hfs, hftok⟩ := push_fields now pl pri q
      have hE0 : ∃ E₀ : List (Int × Payload),
          (PushOntoQueue now pl pri q).defaultTier = q.defaultTier ++ E₀ ∧
          ∀ x ∈ E₀, q.seq ≤ x.1 ∧ x.1 < q.seq + 1 := by
        cases pri with
        | DefaultPriority =>
            refine ⟨[(q.seq, pl)], ?_, ?_⟩
            · rw [hfd]
              exact zadd_append q.seq pl q.defaultTier hscore
            · intro x hx
              simp only [List.mem_singleton] at hx
              subst hx
              exact ⟨le_refl _, by omega⟩
        | BulkPriority => exact ⟨[], by rw [hfd]; simp, by simp⟩
      obtain ⟨E₀, hE0d, hE0b⟩ := hE0
      have hscore1 : ∀ x ∈ (PushOntoQueue now pl pri q).defaultTier,
          x.1 < (PushOntoQueue now pl pri q).seq := by
        intro x hx
        rw [hE0d] at hx
        rw [hfs]
        rcases List.mem_append.mp hx with h | h
        · exact lt_of_lt_of_le (hscore x h) (by omega)
        · exact (hE0b x h).2
      obtain ⟨E₁, h1d, h1b, h1sc, h1le, h1t, h1tok⟩ := ih (PushOntoQueue now pl pri q) hscore1
      refine ⟨E₀ ++ E₁, ?_, ?_, ?_, ?_, ?_, ?_⟩
      · rw [hstep, h1d, hE0d, List.append_assoc]
      · intro x hx
        rcases List.mem_append.mp hx with h | h
        · exact (hE0b x h).1
        · have := h1b x h
          rw [hfs] at this
          omega
      · rw [hstep]
        exact h1sc
      · rw [hstep]
        have := hfs
        omega
      · rw [hstep, h1t, hft]
      · intro h
        rw [hstep]
        exact h1tok (hftok (by rw [h]; intro s hcontra; exact TokenState.noConfusion hcontra))

/-- Popping a compound payload at the head of the default tier, with no rate
limit, returns its head element, records one transaction, and reinserts the
nonempty tail at the head of the tier with score one less. -/
lemma pop_round (q : QState) (k : Int) (v : String) (items : List String)
    (E : List (Int × Payload)) (nowMs : Int)
    (hdef : q.defaultTier = (k, .compound (v :: items)) :: E)
    (hE : ∀ x ∈ E, k ≤ x.1)
    (htok : q.token = .active 0) :
    (PopFromQueue 0 nowMs 0 q).1 = .payload v ∧
    (PopFromQueue 0 nowMs 0 q).2.transactions = nowMs :: q.transactions ∧
    (items ≠ [] →
      (PopFromQueue 0 nowMs 0 q).2.defaultTier = (k - 1, .compound items) :: E ∧
      (PopFromQueue 0 nowMs 0 q).2.token = .active 0) ∧
    (items = [] → (PopFromQueue 0 nowMs 0 q).2.defaultTier = E) ∧
    (PopFromQueue 0 nowMs 0 q).2.seq = q.seq ∧
    (PopFromQueue 0 nowMs 0 q).2.bulkTier = q.bulkTier := by
  have hrate : ¬((0 : Nat) < 0 ∧ 0 ≤ recentTransactions nowMs q) := by simp
  have hpop := pop_default_eq 0 nowMs 0 q 0 k (.compound (v :: items)) E
    htok (le_refl 0) hrate hdef
  cases items with
  | nil =>
      have hpm : popMember k (Payload.compound [v]) E = (v, E) := rfl
      rw [hpm] at hpop
      rw [hpop]
      refine ⟨rfl, rfl, ?_, fun _ => rfl, rfl, rfl⟩
      intro h
      exact absurd rfl h
  | cons a l =>
      have hz : zadd (k - 1) (Payload.compound (a :: l)) E = (k - 1, .compound (a :: l)) :: E :=
        zadd_prepend _ _ E (fun x hx => lt_of_lt_of_le (by omega) (hE x hx))
      have hpm : popMember k (Payload.compound (v :: a :: l)) E =
          (v, (k - 1, Payload.compound (a :: l)) :: E) := by
        simp [popMember, hz]
      rw [hpm] at hpop
      rw [hpop]
      refine ⟨rfl, rfl, ?_, ?_, rfl, rfl⟩
      · intro _
        refine ⟨rfl, ?_⟩
        simp
      · intro h
        exact absurd h (List.cons_ne_nil _ _)

/-- **C4.** Pushing a compound payload `[a, b, c]` onto a destination whose
default tier is empty yields, as the next three pops of that destination,
`a`, `b`, `c` in order, each recording one rate-limit transaction — even when
arbitrary further payloads are pushed (at either priority) between the pops,
because the compound tail is reinserted at the head of its tier. Settled
against the spec-modelled queue engine. -/
theorem compound_split
    (q : QState) (a b c : String) (L₁ L₂ L₃ : List (Payload × Priority))
    (m₁ m₂ m₃ : Int)
    (hdef : q.defaultTier = [])
    (htok : ∀ s, q.token ≠ .throttled s) :
    let s₀ := PushOntoQueue 0 (.compound [a, b, c]) .DefaultPriority q
    let s₁ := pushList 0 L₁ s₀
    let r₁ := PopFromQueue 0 m₁ 0 s₁
    let s₂ := pushList 0 L₂ r₁.2
    let r₂ := PopFromQueue 0 m₂ 0 s₂
    let s₃ := pushList 0 L₃ r₂.2
    let r₃ := PopFromQueue 0 m₃ 0 s₃
    r₁.1 = .payload a ∧ r₂.1 = .payload b ∧ r₃.1 = .payload c ∧
    r₁.2.transactions = m₁ :: s₁.transactions ∧
    r₂.2.transactions = m₂ :: s₂.transactions ∧
    r₃.2.transactions = m₃ :: s₃.transactions := by
  intro s₀ s₁ r₁ s₂ r₂ s₃ r₃
  -- the state right after the compound push
  obtain ⟨hfd, hfb, hft, hfs, hftok⟩ := push_fields 0 (.compound [a, b, c]) .DefaultPriority q
  have hd0 : s₀.defaultTier = [(q.seq, .compound [a, b, c])] := by
    show (PushOntoQueue 0 (.compound [a, b, c]) .DefaultPriority q).defaultTier = _
    rw [hfd, hdef]
    rfl
  have hs0 : s₀.seq = q.seq + 1 := hfs
  have htok0 : s₀.token = .active 0 := hftok htok
  have hscore0 : ∀ x ∈ s₀.defaultTier, x.1 < s₀.seq := by
    intro x hx
    rw [hd0] at hx
    simp only [List.mem_singleton] at hx
    subst hx
    rw [hs0]
    show q.seq < q.seq + 1
    omega
  -- interleaved pushes before the first pop
  obtain ⟨E₁, h1d₀, h1b₀, h1sc₀, h1le₀, h1t₀, h1tok₀⟩ := pushList_spec 0 L₁ s₀ hscore0
  have h1d : s₁.defaultTier = s₀.defaultTier ++ E₁ := h1d₀
  have h1sc : ∀ x ∈ s₁.defaultTier, x.1 < s₁.seq := h1sc₀
  have h1le : s₀.seq ≤ s₁.seq := h1le₀
  have h1tok' : s₁.token = .active 0 := h1tok₀ htok0
  have hd1 : s₁.defaultTier = (q.seq, Payload.compound (a :: [b, c])) :: E₁ := by
    rw [h1d, hd0]
    rfl
  have h1b' : ∀ x ∈ E₁, q.seq + 1 ≤ x.1 := by
    intro x hx
    have := h1b₀ x hx
    rw [hs0] at this
    omega
  -- first pop: returns a, tail [b, c] reinserted at the head
  obtain ⟨hr1v, hr1t, hr1ne, _, hr1s₀, hr1bk₀⟩ :=
    pop_round s₁ q.seq a [b, c] E₁ m₁ hd1 (fun x hx => by have := h1b' x hx; omega) h1tok'
  have hr1s : r₁.2.seq = s₁.seq := hr1s₀
  obtain ⟨hr1d₀, hr1tok₀⟩ := hr1ne (by simp)
  have hr1d : r₁.2.defaultTier = (q.seq - 1, .compound [b, c]) :: E₁ := hr1d₀
  have hr1tok : r₁.2.token = .active 0 := hr1tok₀
  have hscoreR1 : ∀ x ∈ r₁.2.defaultTier, x.1 < r₁.2.seq := by
    intro x hx
    rw [hr1d] at hx
    rw [hr1s]
    rcases List.mem_cons.mp hx with h | h
    · subst h
      show q.seq - 1 < s₁.seq
      omega
    · have hm : x ∈ s₁.defaultTier := by
        rw [hd1]
        exact List.mem_cons_of_mem _ h
      exact h1sc x hm
  -- interleaved pushes before the second pop
  obtain ⟨E₂, h2d₀, h2b₀, h2sc₀, h2le₀, h2t₀, h2tok₀⟩ := pushList_spec 0 L₂ r₁.2 hscoreR1
  have h2d : s₂.defaultTier = r₁.2.defaultTier ++ E₂ := h2d₀
  have h2sc : ∀ x ∈ s₂.defaultTier, x.1 < s₂.seq := h2sc₀
  have h2le : r₁.2.seq ≤ s₂.seq := h2le₀
  have h2tok' : s₂.token = .active 0 := h2tok₀ hr1tok
  have hd2 : s₂.defaultTier = (q.seq - 1, Payload.compound (b :: [c])) :: (E₁ ++ E₂) := by
    rw [h2d, hr1d]
    rfl
  have h2b' : ∀ x ∈ E₁ ++ E₂, q.seq - 1 ≤ x.1 := by
    intro x hx
    rcases List.mem_append.mp hx with h | h
    · have := h1b' x h; omega
    · have h2x : r₁.2.seq ≤ x.1 := h2b₀ x h
      rw [hr1s] at h2x
      omega
  -- second pop: returns b, tail [c] reinserted at the head
  obtain ⟨hr2v, hr2t, hr2ne, _, hr2s₀, hr2bk₀⟩ :=
    pop_round s₂ (q.seq - 1) b [c] (E₁ ++ E₂) m₂ hd2 h2b' h2tok'
  have hr2s : r₂.2.seq = s₂.seq := hr2s₀
  obtain ⟨hr2d₀, hr2tok₀⟩ := hr2ne (by simp)
  have hr2d : r₂.2.defaultTier = (q.seq - 1 - 1, .compound [c]) :: (E₁ ++ E₂) := hr2d₀
  have hr2tok : r₂.2.token = .active 0 := hr2tok₀
  have hscoreR2 : ∀ x ∈ r₂.2.defaultTier, x.1 < r₂.2.seq := by
    intro x hx
    rw [hr2d] at hx
    rw [hr2s]
    rcases List.mem_cons.mp hx with h | h
    · subst h
      show q.seq - 1 - 1 < s₂.seq
      omega
    · have hm : x ∈ s₂.defaultTier := by
        rw [hd2]
        exact List.mem_cons_of_mem _ h
      exact h2sc x hm
  -- interleaved pushes before the third pop
  obtain ⟨E₃, h3d₀, h3b₀, h3sc₀, h3le₀, h3t₀, h3tok₀⟩ := pushList_spec 0 L₃ r₂.2 hscoreR2
  have h3d : s₃.defaultTier = r₂.2.defaultTier ++ E₃ := h3d₀
  have h3le : r₂.2.seq ≤ s₃.seq := h3le₀
  have h3tok' : s₃.token = .active 0 := h3tok₀ hr2tok
  have hd3 : s₃.defaultTier = (q.seq - 1 - 1, Payload.compound (c :: [])) :: ((E₁ ++ E₂) ++ E₃) := by
    rw [h3d, hr2d]
    rfl
  have h3b' : ∀ x ∈ (E₁ ++ E₂) ++ E₃, q.seq - 1 - 1 ≤ x.1 := by
    intro x hx
    rcases List.mem_append.mp hx with h | h
    · have := h2b' x h; omega
    · have h3x : r₂.2.seq ≤ x.1 := h3b₀ x h
      rw [hr2s] at h3x
      omega
  -- third pop: returns c, tail empty
  obtain ⟨hr3v, hr3t, _, _, _, _⟩ :=
    pop_round s₃ (q.seq - 1 - 1) c [] ((E₁ ++ E₂) ++ E₃) m₃ hd3 h3b' h3tok'
  exact ⟨hr1v, hr2v, hr3v, hr1t, hr2t, hr3t⟩

/-- Witness for C4: compound `["a","b","c"]` pushed on the empty queue, with a
simple payload pushed in between, still pops `a`, `b`, `c` consecutively. -/
theorem compound_split_witness :
    (let s₀ := PushOntoQueue 0 (.compound ["a", "b", "c"]) .DefaultPriority initialQState
     let s₁ := pushList 0 [(.simple "x", .DefaultPriority)] s₀
     let r₁ := PopFromQueue 0 1 0 s₁
     let s₂ := pushList 0 [] r₁.2
     let r₂ := PopFromQueue 0 2 0 s₂
     let s₃ := pushList 0 [] r₂.2
     let r₃ := PopFromQueue 0 3 0 s₃
     r₁.1 = .payload "a" ∧ r₂.1 = .payload "b" ∧ r₃.1 = .payload "c" ∧
     r₁.2.transactions = 1 :: s₁.transactions ∧
     r₂.2.transactions = 2 :: s₂.transactions ∧
     r₃.2.transactions = 3 :: s₃.transactions) :=
  compound_split initialQState "a" "b" "c"
    [(.simple "x", .DefaultPriority)] [] [] 1 2 3 rfl
    (fun s h => TokenState.noConfusion h)

/- ===================================================================
   Contact URN resolver (embedded from the rapidpro backend source).
   =================================================================== -/

/-- A courier URN: scheme, path and optional display; the identity string is
scheme and path joined by a colon. -/
structure URN where
  scheme : String
  path : String
  display : Option String
  deriving DecidableEq, Repr

/-- The canonical identity of a URN: scheme and path. -/
def URN.identity (u : URN) : String := u.scheme ++ ":" ++ u.path

/-- The telephone scheme constant (courier.TelScheme). -/
def telScheme : String := "tel"

/-- Embedding of DBContactURN: the database row for a contact URN. -/
structure DBContactURN where
  orgID : Int
  id : Int
  identity : String
  scheme : String
  path : String
  display : Option String
  priority : Int
  channelID : Int
  contactID : Int
  deriving DecidableEq, Repr

/-- Embedding of newDBContactURN: a fresh row carrying the supplied org,
channel, contact and URN fields; the id and priority fields are not assigned
and stay at the Go zero value. -/
def newDBContactURN (org channelID contactID : Int) (urn : URN) : DBContactURN :=
  { orgID := org, id := 0, identity := urn.identity, scheme := urn.scheme,
    path := urn.path, display := urn.display, priority := 0,
    channelID := channelID, contactID := contactID }

/-- Embedding of the reprioritization loop of setDefaultURN: the URN matching
the target identity gets topPriority 99 and the new channel; every other URN
gets the current descending priority (beginning at 50) and, when both it and
the target use the telephone scheme, the new channel as affinity. -/
def setDefaultURNLoop (channelID : Int) (scheme identity : String) :
    Int → List DBContactURN → List DBContactURN
  | _, [] => []
  | currPriority, existing :: rest =>
    if existing.identity = identity then
      { existing with priority := 99, channelID := channelID } ::
        setDefaultURNLoop channelID scheme identity currPriority rest
    else
      { existing with
          priority := currPriority,
          channelID :=
            (if existing.scheme = telScheme ∧ scheme = telScheme then channelID
             else existing.channelID) } ::
        setDefaultURNLoop channelID scheme identity (currPriority - 1) rest

/-- Embedding of setDefaultURN over the contact's loaded URN rows (ordered by
priority descending, as contactURNsForContact returns them). An empty list is
an error naming the identity and the contact; if the top row is the target,
only its display and channel are brought up to date; otherwise every row is
updated by the reprioritization loop. The returned list holds the rows as
persisted by updateContactURN. -/
def setDefaultURN (channelID contactID : Int) (urn : URN) :
    List DBContactURN → Except String (List DBContactURN)
  | [] => .error ("URN " ++ urn.identity ++ " not present for contact " ++ toString contactID)
  | first :: rest =>
    if first.identity = urn.identity then
      if first.display ≠ urn.display ∨ first.channelID ≠ channelID then
        .ok ({ first with display := urn.display, channelID := channelID } :: rest)
      else
        .ok (first :: rest)
    else
      .ok (setDefaultURNLoop channelID urn.scheme urn.identity 50 (first :: rest))

/-- A database write performed by contactURNForURN. -/
inductive DBEffect where
  | insert (row : DBContactURN)
  | update (row : DBContactURN)
  deriving DecidableEq, Repr

/-- Embedding of the selectOrgURN query: the row matching (org, identity) with
the highest priority, if any. -/
def selectOrgURN (db : List DBContactURN) (org : Int) (identity : String) :
    Option DBContactURN :=
  (db.filter (fun r => r.orgID = org ∧ r.identity = identity)).foldl
    (fun acc r =>
      match acc with
      | none => some r
      | some b => if b.priority < r.priority then some r else some b) none

/-- Embedding of contactURNForURN: look up the row for (org, identity); when
absent, insert the fresh row (the database assigns its id, supplied here as
`newID`); then, if channel, contact or display differ from the supplied
values, update those fields. Returns the resulting row together with the list
of writes performed. -/
def contactURNForURN (db : List DBContactURN) (org channelID contactID newID : Int)
    (urn : URN) : DBContactURN × List DBEffect :=
  match selectOrgURN db org urn.identity with
  | none =>
    let inserted := { newDBContactURN org channelID contactID urn with id := newID }
    if inserted.channelID ≠ channelID ∨ inserted.contactID ≠ contactID ∨
        inserted.display ≠ urn.display then
      let updated :=
        { inserted with channelID := channelID, contactID := contactID, display := urn.display }
      (updated, [.insert inserted, .update updated])
    else
      (inserted, [.insert inserted])
  | some row =>
    if row.channelID ≠ channelID ∨ row.contactID ≠ contactID ∨ row.display ≠ urn.display then
      let updated :=
        { row with channelID := channelID, contactID := contactID, display := urn.display }
      (updated, [.update updated])
    else
      (row, [])

/-- Counterexample for C5: get-or-create on an empty table inserts the row
with priority 0 (the Go zero value of the unset field), not 50. -/
theorem urn_insert_priority_counterexample :
    (contactURNForURN [] 1 2 3 10 { scheme := "tel", path := "+15551234", display := none }).1.priority = 0 ∧
    (contactURNForURN [] 1 2 3 10 { scheme := "tel", path := "+15551234", display := none }).1.priority ≠ 50 := by
  decide

/-- **C5 (amended).** When no row matches (org, identity), contactURNForURN
performs exactly one insert, of a row carrying the supplied channel, contact
and display — and priority 0 (the unset Go zero value), not 50. -/
theorem urn_insert_fields (db : List DBContactURN) (org channelID contactID newID : Int)
    (urn : URN) (habs : selectOrgURN db org urn.identity = none) :
    (contactURNForURN db org channelID contactID newID urn).2 =
      [.insert (contactURNForURN db org channelID contactID newID urn).1] ∧
    (contactURNForURN db org channelID contactID newID urn).1.channelID = channelID ∧
    (contactURNForURN db org channelID contactID newID urn).1.contactID = contactID ∧
    (contactURNForURN db org channelID contactID newID urn).1.display = urn.display ∧
    (contactURNForURN db org channelID contactID newID urn).1.priority = 0 := by
  simp [contactURNForURN, habs, newDBContactURN]

/-- Witness for the amended C5 at a concrete empty table. -/
theorem urn_insert_fields_witness :
    selectOrgURN [] 1 (URN.identity { scheme := "tel", path := "+15551234", display := some "Bob" }) = none ∧
    (contactURNForURN [] 1 2 3 10 { scheme := "tel", path := "+15551234", display := some "Bob" }).2 =
      [.insert (contactURNForURN [] 1 2 3 10 { scheme := "tel", path := "+15551234", display := some "Bob" }).1] ∧
    (contactURNForURN [] 1 2 3 10 { scheme := "tel", path := "+15551234", display := some "Bob" }).1.channelID = 2 ∧
    (contactURNForURN [] 1 2 3 10 { scheme := "tel", path := "+15551234", display := some "Bob" }).1.contactID = 3 ∧
    (contactURNForURN [] 1 2 3 10 { scheme := "tel", path := "+15551234", display := some "Bob" }).1.display = some "Bob" ∧
    (contactURNForURN [] 1 2 3 10 { scheme := "tel", path := "+15551234", display := some "Bob" }).1.priority = 0 := by
  have h := urn_insert_fields [] 1 2 3 10
    { scheme := "tel", path := "+15551234", display := some "Bob" } rfl
  exact ⟨rfl, h.1, h.2.1, h.2.2.1, h.2.2.2.1, h.2.2.2.2⟩

/-- **C8.** When a row for (org, identity) is found: if its channel, contact
or display differ from the supplied values, exactly those three fields are
set to the supplied values by a single update, while org, identity, scheme,
path and priority keep their values; if none differ, no write happens. -/
theorem urn_update_frame (db : List DBContactURN) (org channelID contactID newID : Int)
    (urn : URN) (row : DBContactURN)
    (hfound : selectOrgURN db org urn.identity = some row) :
    ((row.channelID ≠ channelID ∨ row.contactID ≠ contactID ∨ row.display ≠ urn.display) →
      contactURNForURN db org channelID contactID newID urn =
        ({ row with channelID := channelID, contactID := contactID, display := urn.display },
         [.update { row with channelID := channelID, contactID := contactID, display := urn.display }]) ∧
      (contactURNForURN db org channelID contactID newID urn).1.orgID = row.orgID ∧
      (contactURNForURN db org channelID contactID newID urn).1.identity = row.identity ∧
      (contactURNForURN db org channelID contactID newID urn).1.scheme = row.scheme ∧
      (contactURNForURN db org channelID contactID newID urn).1.path = row.path ∧
      (contactURNForURN db org channelID contactID newID urn).1.priority = row.priority) ∧
    (¬(row.channelID ≠ channelID ∨ row.contactID ≠ contactID ∨ row.display ≠ urn.display) →
      contactURNForURN db org channelID contactID newID urn = (row, [])) := by
  constructor
  · intro hdiff
    have heq : contactURNForURN db org channelID contactID newID urn =
        ({ row with channelID := channelID, contactID := contactID, display := urn.display },
         [.update { row with channelID := channelID, contactID := contactID, display := urn.display }]) := by
      simp [contactURNForURN, hfound, hdiff]
    rw [heq]
    exact ⟨rfl, rfl, rfl, rfl, rfl, rfl⟩
  · intro hsame
    simp [contactURNForURN, hfound, hsame]

/-- Witness for C8 at a concrete table: a found row whose channel differs is
rewritten to the supplied channel, contact and display, and nothing else; a
found row with equal fields triggers no write. -/
theorem urn_update_frame_witness :
    (contactURNForURN
        [{ orgID := 1, id := 7, identity := "tel:+15551234", scheme := "tel",
           path := "+15551234", display := none, priority := 50, channelID := 9,
           contactID := 4 }] 1 2 4 99 { scheme := "tel", path := "+15551234", display := none } =
      ({ orgID := 1, id := 7, identity := "tel:+15551234", scheme := "tel",
         path := "+15551234", display := none, priority := 50, channelID := 2,
         contactID := 4 },
       [.update { orgID := 1, id := 7, identity := "tel:+15551234", scheme := "tel",
                  path := "+15551234", display := none, priority := 50, channelID := 2,
                  contactID := 4 }])) ∧
    (contactURNForURN
        [{ orgID := 1, id := 7, identity := "tel:+15551234", scheme := "tel",
           path := "+15551234", display := none, priority := 50, channelID := 2,
           contactID := 4 }] 1 2 4 99 { scheme := "tel", path := "+15551234", display := none } =
      ({ orgID := 1, id := 7, identity := "tel:+15551234", scheme := "tel",
         path := "+15551234", display := none, priority := 50, channelID := 2,
         contactID := 4 }, [])) := by
  constructor
  · have h := urn_update_frame
      [{ orgID := 1, id := 7, identity := "tel:+15551234", scheme := "tel",
         path := "+15551234", display := none, priority := 50, channelID := 9,
         contactID := 4 }] 1 2 4 99 { scheme := "tel", path := "+15551234", display := none }
      { orgID := 1, id := 7, identity := "tel:+15551234", scheme := "tel",
        path := "+15551234", display := none, priority := 50, channelID := 9,
        contactID := 4 } (by decide)
    exact (h.1 (by decide)).1
  · have h := urn_update_frame
      [{ orgID := 1, id := 7, identity := "tel:+15551234", scheme := "tel",
         path := "+15551234", display := none, priority := 50, channelID := 2,
         contactID := 4 }] 1 2 4 99 { scheme := "tel", path := "+15551234", display := none }
      { orgID := 1, id := 7, identity := "tel:+15551234", scheme := "tel",
        path := "+15551234", display := none, priority := 50, channelID := 2,
        contactID := 4 } (by decide)
    exact h.2 (by decide)

/-- Element-wise description of the reprioritization loop: the target row is
assigned priority 99 and the new channel; a non-target row at position `i` is
assigned `curr` minus the number of non-target rows before it, and the new
channel exactly when its scheme and the target scheme are both telephone. -/
lemma setDefaultURNLoop_getElem (cid : Int) (sch idn : String) :
    ∀ (urns : List DBContactURN) (curr : Int) (i : Nat),
      (setDefaultURNLoop cid sch idn curr urns)[i]? =
        (urns[i]?).map (fun u =>
          if u.identity = idn then { u with priority := 99, channelID := cid }
          else { u with
            priority := curr - (((urns.take i).filter (fun x => x.identity ≠ idn)).length : Int),
            channelID := (if u.scheme = telScheme ∧ sch = telScheme then cid
                          else u.channelID) }) := by
  intro urns
  induction urns with
  | nil => intro curr i; simp [setDefaultURNLoop]
  | cons u rest ih =>
      intro curr i
      by_cases hu : u.identity = idn
      · have hloop : setDefaultURNLoop cid sch idn curr (u :: rest) =
            { u with priority := 99, channelID := cid } ::
              setDefaultURNLoop cid sch idn curr rest := by
          simp [setDefaultURNLoop, hu]
        cases i with
        | zero => simp [hloop, hu]
        | succ i =>
            rw [hloop]
            simp only [List.getElem?_cons_succ, List.take_succ_cons]
            rw [ih curr i]
            cases hr : rest[i]? with
            | none => rfl
            | some v =>
                simp only [Option.map_some']
                by_cases hv : v.identity = idn
                · simp [hv]
                · have hfilter : ((u :: rest.take i).filter
                      (fun x => x.identity ≠ idn)).length =
                      ((rest.take i).filter (fun x => x.identity ≠ idn)).length := by
                    simp [List.filter_cons, hu]
                  simp only [hv, if_false, hfilter]
      · have hloop : setDefaultURNLoop cid sch idn curr (u :: rest) =
            { u with
                priority := curr,
                channelID :=
                  (if u.scheme = telScheme ∧ sch = telScheme then cid
                   else u.channelID) } ::
              setDefaultURNLoop cid sch idn (curr - 1) rest := by
          simp [setDefaultURNLoop, hu]
        cases i with
        | zero => simp [hloop, hu]
        | succ i =>
            rw [hloop]
            simp only [List.getElem?_cons_succ, List.take_succ_cons]
            rw [ih (curr - 1) i]
            cases hr : rest[i]? with
            | none => rfl
            | some v =>
                simp only [Option.map_some']
                by_cases hv : v.identity = idn
                · simp [hv]
                · have hfilter : ((u :: rest.take i).filter
                      (fun x => x.identity ≠ idn)).length =
                      ((rest.take i).filter (fun x => x.identity ≠ idn)).length + 1 := by
                    simp [List.filter_cons, hu]
                  simp only [hv, if_false, hfilter]
                  have hc : curr - 1 -
                      (((rest.take i).filter (fun x => x.identity ≠ idn)).length : Int) =
                      curr -
                        (((((rest.take i).filter (fun x => x.identity ≠ idn)).length + 1 : Nat)) : Int) := by
                    push_cast
                    omega
                  rw [hc]

/-- **C6.** On a contact with more than one URN whose top-priority URN is not
the target, setDefaultURN succeeds and rewrites every row by the loop: the
target row gets priority 99 and the new channel; each remaining row, in load
order, gets descending priorities 50, 49, 48, …; and a non-target row changes
its channel affinity to the new channel exactly when its scheme and the
target's scheme are both the telephone scheme. -/
theorem set_preferred_urn (channelID contactID : Int) (urn : URN)
    (first : DBContactURN) (rest : List DBContactURN)
    (hlen : rest ≠ []) (hne : first.identity ≠ urn.identity) :
    setDefaultURN channelID contactID urn (first :: rest) =
      .ok (setDefaultURNLoop channelID urn.scheme urn.identity 50 (first :: rest)) ∧
    ∀ i : Nat,
      (setDefaultURNLoop channelID urn.scheme urn.identity 50 (first :: rest))[i]? =
        ((first :: rest)[i]?).map (fun u =>
          if u.identity = urn.identity then
            { u with priority := 99, channelID := channelID }
          else
            { u with
                priority := 50 -
                  ((((first :: rest).take i).filter
                    (fun x => x.identity ≠ urn.identity)).length : Int),
                channelID := (if u.scheme = telScheme ∧ urn.scheme = telScheme
                              then channelID else u.channelID) }) := by
  constructor
  · simp [setDefaultURN, hne]
  · intro i
    exact setDefaultURNLoop_getElem channelID urn.scheme urn.identity (first :: rest) 50 i

/-- Witness for C6 on a concrete contact with three URNs, the second being the
target: priorities become 50, 99, 49, the target takes the new channel, and
the tel-scheme sibling inherits the new channel affinity too. -/
theorem set_preferred_urn_witness :
    setDefaultURN 8 4 { scheme := "tel", path := "+2", display := none }
        [{ orgID := 1, id := 11, identity := "tel:+1", scheme := "tel", path := "+1",
           display := none, priority := 90, channelID := 3, contactID := 4 },
         { orgID := 1, id := 12, identity := "tel:+2", scheme := "tel", path := "+2",
           display := none, priority := 60, channelID := 3, contactID := 4 },
         { orgID := 1, id := 13, identity := "telegram:77", scheme := "telegram", path := "77",
           display := none, priority := 30, channelID := 5, contactID := 4 }] =
      .ok [{ orgID := 1, id := 11, identity := "tel:+1", scheme := "tel", path := "+1",
             display := none, priority := 50, channelID := 8, contactID := 4 },
           { orgID := 1, id := 12, identity := "tel:+2", scheme := "tel", path := "+2",
             display := none, priority := 99, channelID := 8, contactID := 4 },
           { orgID := 1, id := 13, identity := "telegram:77", scheme := "telegram", path := "77",
             display := none, priority := 49, channelID := 5, contactID := 4 }] := by
  have h := set_preferred_urn 8 4 { scheme := "tel", path := "+2", display := none }
    { orgID := 1, id := 11, identity := "tel:+1", scheme := "tel", path := "+1",
      display := none, priority := 90, channelID := 3, contactID := 4 }
    [{ orgID := 1, id := 12, identity := "tel:+2", scheme := "tel", path := "+2",
       display := none, priority := 60, channelID := 3, contactID := 4 },
     { orgID := 1, id := 13, identity := "telegram:77", scheme := "telegram", path := "77",
       display := none, priority := 30, channelID := 5, contactID := 4 }]
    (by decide) (by decide)
  rw [h.1]
  rfl

/-- Counterexample for C7: a contact whose single loaded URN has a different
identity than the target: setDefaultURN returns ok (silently reprioritizing),
not an error. -/
theorem missing_urn_counterexample :
    setDefaultURN 5 7 { scheme := "tel", path := "+1", display := none }
        [{ orgID := 1, id := 11, identity := "tel:+2", scheme := "tel", path := "+2",
           display := none, priority := 50, channelID := 3, contactID := 7 }] =
      .ok [{ orgID := 1, id := 11, identity := "tel:+2", scheme := "tel", path := "+2",
             display := none, priority := 50, channelID := 5, contactID := 7 }] := by
  rfl

/-- **C7 (amended).** setDefaultURN returns the error naming the contact and
the identity exactly when the loaded URN list is empty; when any URNs are
loaded, even without the target among them, no error is returned. -/
theorem missing_urn_error (channelID contactID : Int) (urn : URN) :
    setDefaultURN channelID contactID urn [] =
      .error ("URN " ++ urn.identity ++ " not present for contact " ++ toString contactID) ∧
    ∀ (first : DBContactURN) (rest : List DBContactURN) (e : String),
      setDefaultURN channelID contactID urn (first :: rest) ≠ .error e := by
  constructor
  · rfl
  · intro first rest e
    by_cases h1 : first.identity = urn.identity
    · by_cases h2 : first.display ≠ urn.display ∨ first.channelID ≠ channelID
      · simp [setDefaultURN, h1, h2]
      · simp [setDefaultURN, h1, h2]
    · simp [setDefaultURN, h1]

/- ===================================================================
   Status handlers (embedded from the Kannel and Twilio handler sources).
   =================================================================== -/

/-- Canonical courier message status values used by the handlers. -/
inductive MsgStatusValue where
  | MsgSent
  | MsgDelivered
  | MsgErrored
  | MsgFailed
  | MsgWired
  deriving DecidableEq, Repr

/-- Embedding of kannelStatusMapping: gateway DLR codes to canonical status. -/
def kannelStatusMapping (code : Int) : Option MsgStatusValue :=
  if code = 1 then some .MsgDelivered
  else if code = 2 then some .MsgErrored
  else if code = 4 then some .MsgSent
  else if code = 8 then some .MsgSent
  else if code = 16 then some .MsgErrored
  else none

/-- Embedding of the status-resolution step of the Kannel StatusMessage
handler; the Go quote characters around the code are dropped from the error
text. -/
def kannelStatusMessage (code : Int) : Except String MsgStatusValue :=
  match kannelStatusMapping code with
  | some s => .ok s
  | none => .error ("unknown status " ++ toString code ++ ", must be one of 1,2,4,8,16")

/-- Embedding of twStatusMapping: Twilio status strings to canonical status. -/
def twStatusMapping (status : String) : Option MsgStatusValue :=
  if status = "queued" then some .MsgSent
  else if status = "failed" then some .MsgFailed
  else if status = "sent" then some .MsgSent
  else if status = "delivered" then some .MsgDelivered
  else if status = "undelivered" then some .MsgFailed
  else none

/-- Embedding of the status-resolution step of the Twilio StatusMessage
handler; the Go quote characters around the status are dropped from the error
text. -/
def twStatusMessage (status : String) : Except String MsgStatusValue :=
  match twStatusMapping status with
  | some s => .ok s
  | none => .error ("unknown status " ++ status ++
      ", must be one of queued, failed, sent, delivered, or undelivered")

/-- **C9.** A gateway status code present in the handler's mapping is
translated to its canonical status — in particular Kannel code 1 and Twilio
"delivered" both map to delivered — and the status step returns an error if
and only if the code is absent from the mapping, the error message naming the
offending code. -/
theorem status_mapping (code : Int) (status : String) :
    kannelStatusMapping 1 = some .MsgDelivered ∧
    twStatusMapping "delivered" = some .MsgDelivered ∧
    (∀ s, kannelStatusMapping code = some s → kannelStatusMessage code = .ok s) ∧
    (kannelStatusMapping code = none →
      kannelStatusMessage code =
        .error ("unknown status " ++ toString code ++ ", must be one of 1,2,4,8,16")) ∧
    ((∃ e, kannelStatusMessage code = .error e) ↔ kannelStatusMapping code = none) ∧
    (∀ s, twStatusMapping status = some s → twStatusMessage status = .ok s) ∧
    (twStatusMapping status = none →
      twStatusMessage status =
        .error ("unknown status " ++ status ++
          ", must be one of queued, failed, sent, delivered, or undelivered")) ∧
    ((∃ e, twStatusMessage status = .error e) ↔ twStatusMapping status = none) := by
  refine ⟨by decide, by decide, ?_, ?_, ?_, ?_, ?_, ?_⟩
  · intro s h
    simp [kannelStatusMessage, h]
  · intro h
    simp [kannelStatusMessage, h]
  · cases h : kannelStatusMapping code <;> simp [kannelStatusMessage, h]
  · intro s h
    simp [twStatusMessage, h]
  · intro h
    simp [twStatusMessage, h]
  · cases h : twStatusMapping status <;> simp [twStatusMessage, h]

/-- Witness for C9: the known codes translate, and an unknown Kannel code and
an unknown Twilio status surface errors naming the offending value. -/
theorem status_mapping_witness :
    kannelStatusMessage 1 = .ok .MsgDelivered ∧
    twStatusMessage "delivered" = .ok .MsgDelivered ∧
    kannelStatusMessage 3 = .error "unknown status 3, must be one of 1,2,4,8,16" ∧
    twStatusMessage "bogus" =
      .error "unknown status bogus, must be one of queued, failed, sent, delivered, or undelivered" := by
  obtain ⟨hk1, ht1, hksome, hknone, _, htsome, htnone, _⟩ := status_mapping 3 "bogus"
  obtain ⟨_, _, hksome1, _, _, htsome1, _, _⟩ := status_mapping 1 "delivered"
  exact ⟨hksome1 .MsgDelivered hk1, htsome1 .MsgDelivered ht1,
    hknone (by decide), htnone (by decide)⟩

/- ===================================================================
   Twilio signature construction (embedded from the Twilio handler source).
   =================================================================== -/

/-- Association-list lookups agree across a permutation when keys are
unduplicated. -/
lemma lookup_eq_of_perm {β : Type} :
    ∀ {l₁ l₂ : List (String × β)}, l₁.Perm l₂ → (l₁.map Prod.fst).Nodup →
      ∀ k, List.lookup k l₁ = List.lookup k l₂ := by
  intro l₁ l₂ hperm
  induction hperm with
  | nil => intro _ _; rfl
  | cons a h ih =>
      intro hnd k
      obtain ⟨x, y⟩ := a
      simp only [List.map_cons] at hnd
      have hnd' := (List.nodup_cons.mp hnd).2
      cases hk : k == x with
      | true => simp [List.lookup, hk]
      | false => simpa [List.lookup, hk] using ih hnd' k
  | swap x y l =>
      intro hnd k
      obtain ⟨x1, v1⟩ := x
      obtain ⟨y1, v2⟩ := y
      simp only [List.map_cons] at hnd
      have hne : y1 ≠ x1 := by
        intro hcontra
        apply (List.nodup_cons.mp hnd).1
        rw [hcontra]
        exact List.mem_cons_self _ _
      cases hky : k == y1 with
      | true =>
          cases hkx : k == x1 with
          | true => exact (hne ((eq_of_beq hky).symm.trans (eq_of_beq hkx))).elim
          | false => simp [List.lookup, hky, hkx]
      | false =>
          cases hkx : k == x1 with
          | true => simp [List.lookup, hky, hkx]
          | false => simp [List.lookup, hky, hkx]
  | trans h₁ h₂ ih₁ ih₂ =>
      intro hnd k
      have hnd₂ := (h₁.map Prod.fst).nodup_iff.mp hnd
      exact (ih₁ hnd k).trans (ih₂ hnd₂ k)

/-- Embedding of the signed-string construction of twCalculateSignature: the
url, followed by every form key in sorted order, each key immediately followed
by the concatenation of its values. -/
def twSignedString (url : String) (form : List (String × List String)) : String :=
  let keys := List.insertionSort (fun a b : String => a ≤ b) (form.map Prod.fst)
  keys.foldl (fun buffer k => (buffer ++ k) ++ String.join ((List.lookup k form).getD [])) url

/-- Embedding of twCalculateSignature, with the HMAC-SHA1-and-base64 step
abstracted as a deterministic function `mac` of the auth token and the signed
string. -/
def twCalculateSignature (mac : String → String → List Nat) (url : String)
    (form : List (String × List String)) (authToken : String) : List Nat :=
  mac authToken (twSignedString url form)

/-- **C10.** twCalculateSignature is deterministic in the form contents: two
forms holding the same key/value pairs in any order (keys unduplicated, as in
a Go map) produce the same signed string and hence the same signature bytes,
because the keys are sorted before concatenation. -/
theorem signature_deterministic (mac : String → String → List Nat)
    (url authToken : String) (form₁ form₂ : List (String × List String))
    (hperm : form₁.Perm form₂) (hnd : (form₁.map Prod.fst).Nodup) :
    twCalculateSignature mac url form₁ authToken =
      twCalculateSignature mac url form₂ authToken := by
  have hkeys : (form₁.map Prod.fst).Perm (form₂.map Prod.fst) := hperm.map _
  have hsorteq : List.insertionSort (fun a b : String => a ≤ b) (form₁.map Prod.fst) =
      List.insertionSort (fun a b : String => a ≤ b) (form₂.map Prod.fst) := by
    have hperm2 : (List.insertionSort (fun a b : String => a ≤ b)
        (form₁.map Prod.fst)).Perm
        (List.insertionSort (fun a b : String => a ≤ b) (form₂.map Prod.fst)) :=
      (List.perm_insertionSort _ _).trans
        (hkeys.trans (List.perm_insertionSort _ _).symm)
    exact List.eq_of_perm_of_sorted hperm2
      (List.sorted_insertionSort _ _) (List.sorted_insertionSort _ _)
  have hlook := lookup_eq_of_perm hperm hnd
  have hfun : (fun (buffer : String) (k : String) =>
      (buffer ++ k) ++ String.join ((List.lookup k form₁).getD [])) =
      (fun (buffer : String) (k : String) =>
        (buffer ++ k) ++ String.join ((List.lookup k form₂).getD [])) := by
    funext buffer k
    rw [hlook k]
  unfold twCalculateSignature twSignedString
  rw [hsorteq, hfun]

/-- Witness for C10: the two orderings of a concrete two-key form produce the
same signature. -/
theorem signature_deterministic_witness :
    twCalculateSignature (fun tok s => [tok.length, s.length]) "https://u"
        [("b", ["2"]), ("a", ["1"])] "tok" =
      twCalculateSignature (fun tok s => [tok.length, s.length]) "https://u"
        [("a", ["1"]), ("b", ["2"])] "tok" :=
  signature_deterministic (fun tok s => [tok.length, s.length]) "https://u" "tok"
    [("b", ["2"]), ("a", ["1"])] [("a", ["1"]), ("b", ["2"])]
    (List.Perm.swap ("a", ["1"]) ("b", ["2"]) []) (by decide)

/-- Witness for the amended C7: the empty URN list yields the error naming
identity and contact, while a nonempty list without the target yields none. -/
theorem missing_urn_error_witness :
    setDefaultURN 5 7 { scheme := "tel", path := "+1", display := none } [] =
      .error "URN tel:+1 not present for contact 7" ∧
    setDefaultURN 5 7 { scheme := "tel", path := "+1", display := none }
        [{ orgID := 1, id := 11, identity := "tel:+2", scheme := "tel", path := "+2",
           display := none, priority := 50, channelID := 3, contactID := 7 }] ≠
      .error "URN tel:+1 not present for contact 7" := by
  have h := missing_urn_error 5 7 { scheme := "tel", path := "+1", display := none }
  constructor
  · rw [h.1]
    rfl
  · exact h.2 _ _ _
